import Mathlib

/-!
Verification development for the lumera-supply snapshot engine.

Shallow embedding conventions:
* Go `time.Time` / `time.Duration` values are modelled as `Int` nanoseconds
  (`time.Time.Sub` is exact subtraction, `time.Time.Before` is `<`).
* Monetary amounts are modelled as `Int`: the Go code carries them as
  canonical base-10 `big.Int` strings, and every arithmetic step
  (`SetString`, `Add`, `Sub`, `Mul`, `Quo`, `String`) is exact
  arbitrary-precision integer arithmetic.  The one place where a
  non-numeric string flows into the arithmetic (the empty string produced
  by the error path of `lockedAndEndFromAuthAccount`) is modelled
  explicitly with `Option Int` (`none` = unparseable), because
  `big.Int.SetString` returns `nil` there and the subsequent
  `big.Int.Add` dereferences the `nil` pointer, i.e. the Go program
  crashes; that crash is the `GoResult.crash` outcome.
* `big.Int.Quo` rounds toward zero: `Int.tdiv`.
* Remote LCD queries, Go calendar arithmetic (`time.Time.AddDate`),
  RFC3339 formatting and the SHA-1 hex digest are external library and
  network effects; they enter the model as fields of an `Env` record,
  so every theorem quantifies over their behaviour.
-/

namespace Lumera

def nsPerSec : Int := 1000000000

/-! ## Vesting engine (internal/vesting/vesting.go) -/

/-- Go `Engine.DelayedLocked`: nothing unlocked until `endT`; at `endT` all
unlocked.  `if !now.Before(end) { return "0" }; return total`. -/
def delayedLocked (total now endT : Int) : Int :=
  if endT ≤ now then 0 else total

/-- Go helper `mulRatio(total, num, den)`, named here for the floor
semantics it realizes on its reachable inputs.  `Quo` is truncated
division, and a negative result is clamped to zero. -/
def mulRatioFloor (total num den : Int) : Int :=
  if den ≤ 0 then 0
  else if Int.tdiv (total * (den - num)) den < 0 then 0
  else Int.tdiv (total * (den - num)) den

/-- Go `Engine.ContinuousLocked`: linear unlock from `startT` to `endT`.
The Go guard `!now.Before(start) && !now.Before(end)` is
`startT ≤ now ∧ endT ≤ now`. -/
def continuousLocked (total now startT endT : Int) : Int :=
  if startT ≤ now ∧ endT ≤ now then 0
  else if now < startT then total
  else mulRatioFloor total (now - startT) (endT - startT)

/-- Go `vesting.Period`: a tranche with an end time and an amount. -/
structure Period where
  endT : Int
  amount : Int
  deriving DecidableEq

/-- Go `Engine.PeriodicLocked`: fold over the tranches, adding the amount
of every tranche whose end is still strictly in the future. -/
def periodicLocked (periods : List Period) (now : Int) : Int :=
  periods.foldl (fun locked p => if now < p.endT then locked + p.amount else locked) 0

/-- Go `Engine.ClawbackLocked`: fully locked before the cliff, continuous
afterwards. -/
def clawbackLocked (total now startT cliff endT : Int) : Int :=
  if now < cliff then total else continuousLocked total now startT endT

/-- Go `Engine.PermanentLocked`: identity, never unlocks. -/
def permanentLocked (total : Int) : Int := total

/-! ## Helper lemmas for the vesting engine -/

theorem periodicLocked_foldl (now : Int) (l : List Period) (init : Int) :
    l.foldl (fun locked p => if now < p.endT then locked + p.amount else locked) init =
      init + ((l.filter (fun p => now < p.endT)).map Period.amount).sum := by
  induction l generalizing init with
  | nil => simp
  | cons p l ih =>
    rw [List.foldl_cons, ih]
    by_cases h : now < p.endT
    · simp [List.filter_cons, h]
      ring
    · simp [List.filter_cons, h]

theorem periodicLocked_as_sum (periods : List Period) (now : Int) :
    periodicLocked periods now =
      ((periods.filter (fun p => now < p.endT)).map Period.amount).sum := by
  unfold periodicLocked
  rw [periodicLocked_foldl]
  ring

/-! ## Claims about the vesting engine -/

/-- Claim C3: for nonnegative `total` and `startT < endT`, `ContinuousLocked`
returns `total` before the start, `0` from the end onwards, and otherwise
`total * (endT - now) / (endT - startT)` computed by an exact integer
multiplication followed by a floor division (the divisor is positive, so
Euclidean division `/` is floor division, and it agrees with the
truncating `big.Int.Quo` because the operands are nonnegative). -/
theorem continuousLocked_spec (total now startT endT : Int)
    (htot : 0 ≤ total) (hlt : startT < endT) :
    continuousLocked total now startT endT =
      if now < startT then total
      else if endT ≤ now then 0
      else total * (endT - now) / (endT - startT) := by
  unfold continuousLocked
  rcases lt_or_le now startT with hb | hb
  · rw [if_neg (show ¬(startT ≤ now ∧ endT ≤ now) by omega), if_pos hb, if_pos hb]
  · rcases le_or_lt endT now with hc | hc
    · rw [if_pos ⟨hb, hc⟩, if_neg (show ¬now < startT by omega), if_pos hc]
    · rw [if_neg (show ¬(startT ≤ now ∧ endT ≤ now) by omega),
        if_neg (show ¬now < startT by omega),
        if_neg (show ¬now < startT by omega),
        if_neg (show ¬endT ≤ now by omega)]
      unfold mulRatioFloor
      have hprod : 0 ≤ total * (endT - now) := mul_nonneg htot (by omega)
      have hden : 0 ≤ endT - startT := by omega
      have hrem : endT - startT - (now - startT) = endT - now := by ring
      rw [if_neg (show ¬(endT - startT ≤ 0) by omega), hrem,
        Int.tdiv_eq_ediv hprod hden,
        if_neg (not_lt.mpr (Int.ediv_nonneg hprod hden))]

/-- Witness for C3: the spec example `total=1000` over a 10-unit window,
queried midway, yields `500`. -/
theorem continuousLocked_spec_witness :
    (0 : Int) ≤ 1000 ∧ (0 : Int) < 10 ∧
      continuousLocked 1000 5 0 10 =
        if (5 : Int) < 0 then 1000
        else if (10 : Int) ≤ 5 then 0
        else 1000 * (10 - 5) / (10 - 0) := by
  refine ⟨by decide, by decide, ?_⟩
  exact continuousLocked_spec 1000 5 0 10 (by decide) (by decide)

/-- Claim C4 counterexample: with the degenerate interval `endT = 3 ≤ 5 = startT`
and `now = -1 < startT`, `ContinuousLocked` returns the full `total = 1000`,
not `0`: the `now < start` branch fires before the degenerate-interval guard
in `mulRatio` is ever reached. -/
theorem continuousLocked_degenerate_cex :
    continuousLocked 1000 (-1) 5 3 = 1000 ∧ (1000 : Int) ≠ 0 := by
  exact ⟨rfl, by decide⟩

/-- Claim C4 (amended): when `endT ≤ startT`, `ContinuousLocked` returns `0`
without error only once `now ≥ startT`; while `now < startT` it returns
`total` (the before-start branch takes precedence over the degenerate
interval). -/
theorem continuousLocked_degenerate (total now startT endT : Int)
    (h : endT ≤ startT) :
    continuousLocked total now startT endT = if now < startT then total else 0 := by
  unfold continuousLocked
  rcases lt_or_le now startT with hb | hb
  · rw [if_neg (by omega), if_pos hb, if_pos hb]
  · rw [if_pos ⟨hb, by omega⟩, if_neg (by omega)]

/-- Witness for the amended C4: `endT = 3 ≤ 5 = startT`, `now = 7 ≥ startT`
gives `0`. -/
theorem continuousLocked_degenerate_witness :
    (3 : Int) ≤ 5 ∧ continuousLocked 7 2 5 3 = if (2 : Int) < 5 then 7 else 0 := by
  exact ⟨by decide, continuousLocked_degenerate 7 2 5 3 (by decide)⟩

/-- Claim C5: `PeriodicLocked` returns the arbitrary-precision sum of the
amounts of exactly those tranches whose end is strictly after `now`; a
tranche ending exactly at `now` is excluded by the strict filter and so
contributes nothing. -/
theorem periodicLocked_spec (periods : List Period) (now : Int) :
    periodicLocked periods now =
      ((periods.filter (fun p => now < p.endT)).map Period.amount).sum :=
  periodicLocked_as_sum periods now

/-- Claim C10: `PeriodicLocked` is order-independent: permuting the tranche
list never changes the result. -/
theorem periodicLocked_perm (l1 l2 : List Period) (h : l1.Perm l2) (now : Int) :
    periodicLocked l1 now = periodicLocked l2 now := by
  rw [periodicLocked_as_sum, periodicLocked_as_sum]
  exact List.Perm.sum_eq (List.Perm.map Period.amount (List.Perm.filter _ h))

/-- Witness for C10: a two-tranche list and its swap agree at `now = 15`. -/
theorem periodicLocked_perm_witness :
    List.Perm [Period.mk 10 1, Period.mk 20 2] [Period.mk 20 2, Period.mk 10 1] ∧
      periodicLocked [Period.mk 10 1, Period.mk 20 2] 15 =
        periodicLocked [Period.mk 20 2, Period.mk 10 1] 15 := by
  exact ⟨by decide, periodicLocked_perm _ _ (by decide) 15⟩

/-! ## Data model (pkg/types/types.go) -/

/-- Go `types.AddressItem`: per-address details of a cohort.  `endDate` is an
RFC3339 string, the sentinel `"forever"`, or empty. -/
structure AddressItem where
  address : String
  amount : Int
  endDate : String
  deriving DecidableEq

/-- Go `types.CohortEntry`.  `amount` is the cohort total. -/
structure CohortEntry where
  name : String
  reason : String
  address : String
  items : List AddressItem
  amount : Int
  deriving DecidableEq

/-- Go `types.SupplySnapshot`; the breakdown struct is flattened into the
`cohorts` and `sum` fields. -/
structure Snapshot where
  denom : String
  height : Int
  updatedAt : Int
  etag : String
  total : Int
  circulating : Int
  maxSupply : Option String
  cohorts : List CohortEntry
  sum : Int
  deriving DecidableEq

/-! ## Policy (pkg/policy/policy.go), flattening the Disclosed nesting -/

/-- Go `policy.FoundationEntry` (only the fields `ComputeSnapshot` reads). -/
structure FoundationEntry where
  name : String
  address : String
  deriving DecidableEq

/-- Go `policy.SupernodeEntry`.  `startTime` is an optional timestamp. -/
structure SupernodeEntry where
  name : String
  address : String
  permanent : Bool
  durationMonths : Option Int
  startTime : Option Int
  deriving DecidableEq

/-- Go `policy.Policy` restricted to the fields `ComputeSnapshot` reads:
`MaxSupply`, `ModuleAccounts`, `Disclosed.FoundationGenesis` and
`Disclosed.SupernodeBootstraps`. -/
structure Policy where
  maxSupply : Option String
  moduleAccounts : List String
  foundationGenesis : List FoundationEntry
  supernodeBootstraps : List SupernodeEntry
  deriving DecidableEq

/-! ## Remote data and external libraries (pkg/lcd/client.go, time, crypto) -/

/-- The decoded `auth` account JSON fields that
`lockedAndEndFromAuthAccount` reads.  Amounts are the parsed values of the
canonical decimal strings; `startTime`/`endTime` are the results of the Go
`parseTS` helper (nanoseconds; the Go zero `time.Time` is the constant
`goZeroTime` below). -/
structure AuthAccount where
  typ : String
  originalVesting : List (String × Int)
  startTime : Int
  endTime : Int
  vestingPeriods : List (Int × List (String × Int))

/-- Go `lcd.ClaimRecord`: `time` is `nil ↔ none`; `amount` is the empty
string `""` (no amount for the denom) `↔ none`. -/
structure ClaimRecord where
  address : String
  time : Option Int
  amount : Option Int

/-- The instant of the Go zero `time.Time` (January 1, year 1 UTC) in
nanoseconds relative to the Unix epoch; `t.IsZero()` is `t = goZeroTime`. -/
def goZeroTime : Int := -62135596800 * nsPerSec

/-- The environment of `ComputeSnapshot`: every remote LCD query of
`lcd.Client`, plus the external library functions the computation applies
(`time.Time.AddDate(0, m, 0)` as `addMonths`, RFC3339 formatting of a
nanosecond instant as `fmtTime`, and the hex-encoded SHA-1 digest as
`sha1hex`).  Errors of remote calls are the `Except.error` case. -/
structure Env where
  latestHeight : Except String (Int × Int)
  totalSupplyByDenom : String → Except String Int
  ibcTotalEscrow : String → Except String Int
  communityPool : String → Except String Int
  moduleAddressByName : String → Except String String
  balanceByDenom : String → String → Except String Int
  authAccount : String → Except String AuthAccount
  claimListClaimed : Int → String → Except String (List ClaimRecord)
  addMonths : Int → Int → Int
  fmtTime : Int → String
  sha1hex : String → String

/-- Outcome of a Go function that can return a value, return an error, or
crash with a runtime panic. -/
inductive GoResult (α : Type) where
  | ok (a : α)
  | fail (e : String)
  | crash
  deriving DecidableEq

/-- Go `strings.Contains`. -/
def strContains (s pat : String) : Bool := decide (List.IsInfix pat.data s.data)

/-! ## lockedAndEndFromAuthAccount (pkg/supply/compute.go) -/

/-- The periods timeline of the Go `PeriodicVestingAccount` branch: running
`elapsed` accumulates `length * time.Second`; each period ends at
`startT + elapsed` and carries the first amount matching `denom` (default
`0`). -/
def buildPeriods (denom : String) (startT : Int) :
    List (Int × List (String × Int)) → Int → List Period
  | [], _ => []
  | p :: rest, elapsed =>
    let elapsed2 := elapsed + p.1 * nsPerSec
    let amt := (((p.2.find? (fun a => a.1 = denom)).map Prod.snd).getD 0)
    Period.mk (startT + elapsed2) amt :: buildPeriods denom startT rest elapsed2

/-- Go `Computer.lockedAndEndFromAuthAccount`: fetch the account, read the
original-vesting amount for `denom` (default `"0"`), and dispatch on the
account type tag.  Returns `(locked, endDate, accountType)`. -/
def lockedAndEndFromAuthAccount (env : Env) (address : String) (now : Int)
    (denom : String) : Except String (Int × String × String) :=
  match env.authAccount address with
  | .error e => .error e
  | .ok v =>
    let ov := (((v.originalVesting.find? (fun c => c.1 = denom)).map Prod.snd).getD 0)
    if ov = 0 then .ok (0, "", v.typ)
    else if strContains v.typ "PermanentLockedAccount" then
      .ok (permanentLocked ov, "forever", v.typ)
    else if strContains v.typ "DelayedVestingAccount" then
      .ok (delayedLocked ov now v.endTime,
        if v.endTime = goZeroTime then "" else env.fmtTime v.endTime, v.typ)
    else if strContains v.typ "ContinuousVestingAccount" then
      .ok (continuousLocked ov now v.startTime v.endTime,
        if v.endTime = goZeroTime then "" else env.fmtTime v.endTime, v.typ)
    else if strContains v.typ "PeriodicVestingAccount" ||
        strContains v.typ "ClawbackVestingAccount" then
      let periods := buildPeriods denom v.startTime v.vestingPeriods 0
      .ok (periodicLocked periods now,
        match periods.getLast? with
        | some p => env.fmtTime p.endT
        | none => "", v.typ)
    else .ok (0, "", v.typ)

/-! ## Cohort construction inside ComputeSnapshot (pkg/supply/compute.go) -/

/-- Sum of the item amounts, as accumulated by the Go `totalLocked`
variable. -/
def itemsSum (items : List AddressItem) : Int :=
  (items.map AddressItem.amount).sum

/-- One iteration of the foundation-genesis loop: on error the entry is
logged and skipped (`continue`); on success the locked amount and end date
become a per-address item. -/
def fgItem (env : Env) (t : Int) (denom : String) (e : FoundationEntry) :
    Option AddressItem :=
  match lockedAndEndFromAuthAccount env e.address t denom with
  | .error _ => none
  | .ok (locked, endD, _) => some (AddressItem.mk e.address locked endD)

/-- One iteration of the supernode-bootstraps loop, computing the final
`(locked, end)` pair for the entry.  The first component of the pair is
`none` exactly when the Go `locked` variable still holds the unparseable
empty string of the error path, in which case `big.Int.SetString` yields
`nil` and the following `big.Int.Add` panics. -/
def snEntry (env : Env) (t : Int) (denom : String) (e : SupernodeEntry) :
    Option (Int × String) :=
  let r := lockedAndEndFromAuthAccount env e.address t denom
  let locked0 : Option Int := match r with
    | .ok (l, _, _) => some l
    | .error _ => none
  let end0 : String := match r with
    | .ok (_, endD, _) => endD
    | .error _ => ""
  let isErr : Bool := match r with
    | .ok _ => false
    | .error _ => true
  if isErr || locked0 = some 0 then
    if e.permanent then
      match env.balanceByDenom e.address denom with
      | .ok bal => some (bal, "forever")
      | .error _ => locked0.map (fun v => (v, end0))
    else
      match e.durationMonths with
      | some m =>
        let start := e.startTime.getD t
        let endTime := env.addMonths start m
        match env.balanceByDenom e.address denom with
        | .ok bal => some (delayedLocked bal t endTime, env.fmtTime endTime)
        | .error _ => locked0.map (fun v => (v, end0))
      | none => locked0.map (fun v => (v, end0))
  else locked0.map (fun v => (v, end0))

/-- The per-address item a supernode-bootstrap entry contributes;
`none` = the Go loop panics at this entry. -/
def snItem (env : Env) (t : Int) (denom : String) (e : SupernodeEntry) :
    Option AddressItem :=
  (snEntry env t denom e).map (fun le => AddressItem.mk e.address le.1 le.2)

/-- All supernode-bootstrap items in policy order; `none` = panic. -/
def snItems (env : Env) (t : Int) (denom : String)
    (es : List SupernodeEntry) : Option (List AddressItem) :=
  es.mapM (snItem env t denom)

/-- The fallback of the claim-delayed loop: a synthetic delayed lock from
the claim time (default block time) plus the tier window, using the claim
record amount or, when absent, the on-chain balance; with neither, the
record is skipped. -/
def claimFallbackItem (env : Env) (t : Int) (denom : String) (months : Int)
    (r : ClaimRecord) : Option AddressItem :=
  let start := r.time.getD t
  let endTime := env.addMonths start months
  let amt : Option Int := match r.amount with
    | some a => some a
    | none =>
      match env.balanceByDenom r.address denom with
      | .ok bal => some bal
      | .error _ => none
  amt.map (fun a => AddressItem.mk r.address (delayedLocked a t endTime) (env.fmtTime endTime))

/-- One iteration of the claim-delayed loop: prefer the on-chain lock
computation, falling back to the synthetic delayed lock. -/
def claimItem (env : Env) (t : Int) (denom : String) (months : Int)
    (r : ClaimRecord) : Option AddressItem :=
  match lockedAndEndFromAuthAccount env r.address t denom with
  | .ok (locked, endD, _) => some (AddressItem.mk r.address locked endD)
  | .error _ => claimFallbackItem env t denom months r

/-- Items of one claim tier: a failed tier list fetch is logged and the
tier skipped; tier `n` uses a window of `n * 6` months. -/
def claimTierItems (env : Env) (t : Int) (denom : String) (tier : Int) :
    List AddressItem :=
  match env.claimListClaimed tier denom with
  | .error _ => []
  | .ok recs => recs.filterMap (claimItem env t denom (tier * 6))

/-- All claim-delayed items over tiers 1..4. -/
def claimItems (env : Env) (t : Int) (denom : String) : List AddressItem :=
  ([1, 2, 3, 4] : List Int).flatMap (claimTierItems env t denom)

/-- One iteration of the module-accounts loop: resolve the name (skip on
error or empty address), fetch the balance (skip on error). -/
def moduleCohort (env : Env) (denom : String) (nm : String) :
    Option CohortEntry :=
  match env.moduleAddressByName nm with
  | .ok a =>
    if a ≠ "" then
      match env.balanceByDenom a denom with
      | .ok amt => some (CohortEntry.mk ("module:" ++ nm)
          "protocol-controlled module account" a [] amt)
      | .error _ => none
    else none
  | .error _ => none

/-- The cohort list `breakdown.Cohorts` built by `ComputeSnapshot` in
source order: IBC escrow, community pool, then (with a policy) module
accounts, foundation genesis, supernode bootstraps, claim delayed.
`none` = the supernode loop panicked. -/
def buildCohorts (env : Env) (pol : Option Policy) (t : Int) (denom : String) :
    Option (List CohortEntry) :=
  let base :=
    (match env.ibcTotalEscrow denom with
     | .ok esc => [CohortEntry.mk "ibc_escrow" "ICS20 transfer escrows" "" [] esc]
     | .error _ => []) ++
    (match env.communityPool denom with
     | .ok cp => [CohortEntry.mk "community_pool" "distribution community pool" "" [] cp]
     | .error _ => [])
  match pol with
  | none => some base
  | some p =>
    let mods := p.moduleAccounts.filterMap (moduleCohort env denom)
    let fnd :=
      if p.foundationGenesis.isEmpty then []
      else
        [CohortEntry.mk "foundation_genesis"
          "protocol/foundation vesting locked portion" ""
          (p.foundationGenesis.filterMap (fgItem env t denom))
          (itemsSum (p.foundationGenesis.filterMap (fgItem env t denom)))]
    match (if p.supernodeBootstraps.isEmpty then some []
           else (snItems env t denom p.supernodeBootstraps).map (fun its =>
             [CohortEntry.mk "supernode_bootstraps"
               "protocol supernode bootstrap locks" "" its (itemsSum its)])) with
    | none => none
    | some sns =>
      let cits := claimItems env t denom
      let cl :=
        if 0 < itemsSum cits || !cits.isEmpty then
          [CohortEntry.mk "claim_delayed"
            "claim module delayed locks (6/12/18/24m) with on-chain vesting preference"
            "" cits (itemsSum cits)]
        else []
      some (base ++ mods ++ fnd ++ sns ++ cl)

/-! ## ETag and snapshot assembly -/

/-- The NUL separator byte written between the digest fields. -/
def sepNul : String := "\x00"

/-- The exact byte string `computeETag` feeds to SHA-1:
`denom 0 total 0 circ 0 non 0 RFC3339(time.Unix(height, 0))`. -/
def etagPreimage (denom total circ non heightStr : String) : String :=
  denom ++ sepNul ++ total ++ sepNul ++ circ ++ sepNul ++ non ++ sepNul ++ heightStr

/-- Go `computeETag`: hex-encoded SHA-1 of the field encoding.  The Go code
renders the height as `time.Unix(height, 0).UTC().Format(time.RFC3339)`,
i.e. `fmtTime` of the instant `height` seconds after the epoch. -/
def computeETag (env : Env) (height : Int) (denom total circ non : String) :
    String :=
  env.sha1hex (etagPreimage denom total circ non (env.fmtTime (height * nsPerSec)))

/-- The tail of `ComputeSnapshot`: sum the cohort amounts, clamp
`circulating = total - sum` at zero, fingerprint, and attach the policy
max-supply figure. -/
def finishSnapshot (env : Env) (pol : Option Policy) (height t : Int)
    (denom : String) (total : Int) (cohorts : List CohortEntry) : Snapshot :=
  let sum := (cohorts.map CohortEntry.amount).sum
  let circ0 := total - sum
  let circ := if circ0 < 0 then 0 else circ0
  { denom := denom
    height := height
    updatedAt := t
    etag := computeETag env height denom (toString total) (toString circ) (toString sum)
    total := total
    circulating := circ
    maxSupply := pol.bind Policy.maxSupply
    cohorts := cohorts
    sum := sum }

/-- Go `Computer.ComputeSnapshot`: the height/time fetch and the
total-supply fetch are fatal; the cohorts are then built best-effort, and
the snapshot is assembled.  A `crash` is the supernode-loop panic. -/
def computeSnapshot (env : Env) (pol : Option Policy) (denom : String) :
    GoResult Snapshot :=
  match env.latestHeight with
  | .error e => .fail e
  | .ok (height, t) =>
    match env.totalSupplyByDenom denom with
    | .error e => .fail e
    | .ok total =>
      match buildCohorts env pol t denom with
      | none => .crash
      | some cohorts => .ok (finishSnapshot env pol height t denom total cohorts)

/-! ## Snapshot cache (pkg/cache) -/

/-- The mutable state of `cache.SnapshotCache`: the stored snapshot and its
ETag. -/
structure CacheState where
  snap : Option Snapshot
  etag : String
  deriving DecidableEq

/-- The fixed collaborators of a `SnapshotCache`: its TTL (nanoseconds) and
the computer it drives. -/
structure CacheCfg where
  ttl : Int
  env : Env
  pol : Option Policy

/-- Go `SnapshotCache.Get` observed at wall-clock instant `now`
(`time.Since(s.UpdatedAt) = now - s.updatedAt`): an empty cache yields
`(nil, false)`; otherwise the stored snapshot is returned with the
freshness flag. -/
def cacheGet (st : CacheState) (ttl now : Int) : Option Snapshot × Bool :=
  match st.snap with
  | none => (none, false)
  | some s => if now - s.updatedAt > ttl then (some s, false) else (some s, true)

/-- Go `SnapshotCache.Update`: run the computer; only on success replace
the stored snapshot and ETag.  An error (or panic) leaves the state
untouched. -/
def cacheUpdate (cfg : CacheCfg) (denom : String) (st : CacheState) :
    GoResult Snapshot × CacheState :=
  match computeSnapshot cfg.env cfg.pol denom with
  | .fail e => (.fail e, st)
  | .crash => (.crash, st)
  | .ok s => (.ok s, CacheState.mk (some s) s.etag)

/-- Project the success value out of a `GoResult`. -/
def GoResult.getOk {α : Type} : GoResult α → Option α
  | .ok a => some a
  | .fail _ => none
  | .crash => none

/-! ## Concrete environments for witnesses and counterexamples -/

/-- A minimal environment: the two fatal fetches succeed (height 1, block
time 0, total supply 0), every other remote query fails, and the external
library functions are instantiated with simple total functions. -/
def envBase : Env where
  latestHeight := .ok (1, 0)
  totalSupplyByDenom := fun _ => .ok 0
  ibcTotalEscrow := fun _ => .error "down"
  communityPool := fun _ => .error "down"
  moduleAddressByName := fun _ => .error "down"
  balanceByDenom := fun _ _ => .error "down"
  authAccount := fun _ => .error "down"
  claimListClaimed := fun _ _ => .error "down"
  addMonths := fun t m => t + m
  fmtTime := fun t => toString t
  sha1hex := fun s => s

/-! ## Claim C1: the total/circulating/sum invariant -/

/-- Environment for the C1 counterexample: fetched total supply is `0`
while the IBC escrow cohort alone reports `10`. -/
def envC1 : Env := { envBase with ibcTotalEscrow := fun _ => .ok 10 }

/-- Claim C1 counterexample: with fetched total `0` and a single cohort of
`10`, `ComputeSnapshot` succeeds with `total = 0`, `circulating = 0`
(clamped) and `non_circulating.sum = 10`, so
`total ≠ circulating + sum`: the invariant fails exactly when the cohort
sum exceeds the fetched total. -/
theorem c1_invariant_cex :
    ((computeSnapshot envC1 none "ulume").getOk.map
        (fun s => (s.total, s.circulating, s.sum)) = some (0, 0, 10)) ∧
      ¬((0 : Int) = 0 + 10) := by
  refine ⟨?_, by decide⟩
  rfl

/-- Claim C1 (amended): every successfully produced snapshot satisfies
`circulating = max 0 (total - sum)` with `sum` the cohort-amount sum; hence
`total = circulating + sum` holds exactly when `sum ≤ total`, and when the
cohort sum exceeds the fetched total the clamp forces `circulating = 0`
(and the equation fails). -/
theorem c1_clamped_invariant (env : Env) (pol : Option Policy) (denom : String)
    (s : Snapshot) (h : computeSnapshot env pol denom = .ok s) :
    s.sum = (s.cohorts.map CohortEntry.amount).sum ∧
    s.circulating = max 0 (s.total - s.sum) ∧
    (s.sum ≤ s.total → s.total = s.circulating + s.sum) ∧
    (s.total < s.sum → s.circulating = 0) := by
  unfold computeSnapshot at h
  split at h
  · simp at h
  · split at h
    · simp at h
    · split at h
      · simp at h
      · injection h with h2
        subst h2
        refine ⟨?_, ?_, ?_, ?_⟩
        · simp [finishSnapshot]
        · simp only [finishSnapshot]
          split_ifs <;> omega
        · simp only [finishSnapshot]
          intro hle
          split_ifs <;> omega
        · simp only [finishSnapshot]
          intro hlt
          split_ifs <;> omega

/-- Witness for the amended C1 on a concrete run (no cohorts at all:
total `0`, sum `0`, circulating `0`). -/
def snapW1 : Snapshot := finishSnapshot envBase none 1 0 "ulume" 0 []

theorem c1_clamped_invariant_witness :
    computeSnapshot envBase none "ulume" = .ok snapW1 ∧
      (snapW1.sum = (snapW1.cohorts.map CohortEntry.amount).sum ∧
        snapW1.circulating = max 0 (snapW1.total - snapW1.sum) ∧
        (snapW1.sum ≤ snapW1.total → snapW1.total = snapW1.circulating + snapW1.sum) ∧
        (snapW1.total < snapW1.sum → snapW1.circulating = 0)) :=
  ⟨rfl, c1_clamped_invariant envBase none "ulume" snapW1 rfl⟩

/-! ## Claim C2: best-effort cohorts vs. the supernode-bootstrap panic -/

/-- Policy for the C2 failing input: one supernode-bootstrap entry with no
permanent flag and no duration hint. -/
def polC2 : Policy where
  maxSupply := none
  moduleAccounts := []
  foundationGenesis := []
  supernodeBootstraps := [SupernodeEntry.mk "sn1" "lumera1snbootstrap" false none none]

/-- Claim C2 failing input: when the on-chain account lookup for the
supernode-bootstrap address fails and the policy entry has neither a
permanent flag nor a duration hint, the Go loop leaves `locked` as the
empty string, `big.Int.SetString` returns `nil`, and `totalLocked.Add`
panics: `ComputeSnapshot` crashes instead of omitting the entry and
returning the surviving cohorts. -/
theorem c2_supernode_crash :
    computeSnapshot envBase (some polC2) "ulume" = .crash := rfl

/-! ## Claim C6: the bootstrap-cohort policy fallbacks -/

/-- Claim C6: for a supernode-bootstrap entry whose on-chain lock
computation fails or yields zero locked, and whose current balance is
fetchable: a permanent entry records its whole balance locked with end
date `"forever"`; otherwise a `duration_months` hint records
`DelayedLocked` of the balance up to the configured start time (default:
the observed block time) plus that many months, with that end time
recorded as the end date. -/
theorem c6_bootstrap_fallback (env : Env) (t : Int) (denom : String)
    (e : SupernodeEntry)
    (hfb : (∃ err, lockedAndEndFromAuthAccount env e.address t denom = .error err) ∨
      (∃ endD ty, lockedAndEndFromAuthAccount env e.address t denom = .ok (0, endD, ty)))
    (bal : Int) (hbal : env.balanceByDenom e.address denom = .ok bal) :
    (e.permanent = true →
      snItem env t denom e = some (AddressItem.mk e.address bal "forever")) ∧
    (e.permanent = false → ∀ m, e.durationMonths = some m →
      snItem env t denom e = some (AddressItem.mk e.address
        (delayedLocked bal t (env.addMonths (e.startTime.getD t) m))
        (env.fmtTime (env.addMonths (e.startTime.getD t) m)))) := by
  constructor
  · intro hperm
    rcases hfb with ⟨err, herr⟩ | ⟨endD, ty, hok⟩
    · simp [snItem, snEntry, herr, hperm, hbal]
    · simp [snItem, snEntry, hok, hperm, hbal]
  · intro hperm m hm
    rcases hfb with ⟨err, herr⟩ | ⟨endD, ty, hok⟩
    · simp [snItem, snEntry, herr, hperm, hm, hbal]
    · simp [snItem, snEntry, hok, hperm, hm, hbal]

/-- Environment for the C6 witness: account lookups fail, balances are
fetchable (`77`). -/
def envW6 : Env := { envBase with balanceByDenom := fun _ _ => .ok 77 }

/-- A permanent bootstrap entry for the C6 witness. -/
def entW6 : SupernodeEntry := SupernodeEntry.mk "sn" "lumera1perm" true none none

theorem c6_bootstrap_fallback_witness :
    lockedAndEndFromAuthAccount envW6 entW6.address 0 "ulume" = .error "down" ∧
      envW6.balanceByDenom entW6.address "ulume" = .ok 77 ∧
      snItem envW6 0 "ulume" entW6 = some (AddressItem.mk entW6.address 77 "forever") :=
  ⟨rfl, rfl,
    (c6_bootstrap_fallback envW6 0 "ulume" entW6 (Or.inl ⟨"down", rfl⟩) 77 rfl).1 rfl⟩

/-! ## Claim C7: fatal fetch failures and cache atomicity -/

/-- Claim C7: if the height/time fetch fails, or it succeeds and the
total-supply fetch fails, `ComputeSnapshot` returns that error and no
snapshot, and `SnapshotCache.Update` returns the error leaving any
previously stored state untouched. -/
theorem c7_fatal_error_preserves_cache (cfg : CacheCfg) (denom e : String)
    (h : cfg.env.latestHeight = .error e ∨
      (∃ ht : Int × Int, cfg.env.latestHeight = .ok ht ∧
        cfg.env.totalSupplyByDenom denom = .error e)) :
    computeSnapshot cfg.env cfg.pol denom = .fail e ∧
      ∀ st : CacheState, cacheUpdate cfg denom st = (.fail e, st) := by
  have hcs : computeSnapshot cfg.env cfg.pol denom = .fail e := by
    rcases h with h1 | ⟨⟨height, t⟩, h1, h2⟩
    · unfold computeSnapshot
      rw [h1]
    · unfold computeSnapshot
      rw [h1, h2]
  refine ⟨hcs, fun st => ?_⟩
  unfold cacheUpdate
  rw [hcs]

/-- Environment for the C7 witness: the height fetch itself fails. -/
def envW7 : Env := { envBase with latestHeight := .error "lcd latest block: 502" }

/-- Configuration and a non-empty cache state for the C7 witness. -/
def cfgW7 : CacheCfg := CacheCfg.mk 60000000000 envW7 none

def stW7 : CacheState := CacheState.mk (some snapW1) snapW1.etag

theorem c7_fatal_error_preserves_cache_witness :
    envW7.latestHeight = .error "lcd latest block: 502" ∧
      computeSnapshot cfgW7.env cfgW7.pol "ulume" = .fail "lcd latest block: 502" ∧
      cacheUpdate cfgW7 "ulume" stW7 = (.fail "lcd latest block: 502", stW7) := by
  have h := c7_fatal_error_preserves_cache cfgW7 "ulume" "lcd latest block: 502" (Or.inl rfl)
  exact ⟨rfl, h.1, h.2 stW7⟩

/-! ## Claim C8: freshness-aware cache reads -/

/-- Claim C8: `Get` on an empty cache returns `(absent, false)`; on a
non-empty cache it always returns the stored snapshot (never discarding a
stale one), and the freshness flag is `true` exactly when the snapshot age
`now - updatedAt` is at most the TTL. -/
theorem c8_cache_get (ttl now : Int) (et : String) :
    cacheGet (CacheState.mk none et) ttl now = (none, false) ∧
      ∀ s : Snapshot,
        (cacheGet (CacheState.mk (some s) et) ttl now).1 = some s ∧
        ((cacheGet (CacheState.mk (some s) et) ttl now).2 = true ↔
          now - s.updatedAt ≤ ttl) := by
  refine ⟨rfl, fun s => ?_⟩
  by_cases h : now - s.updatedAt > ttl
  · have hg : cacheGet (CacheState.mk (some s) et) ttl now = (some s, false) := by
      unfold cacheGet
      simp [h]
    rw [hg]
    refine ⟨rfl, ?_⟩
    simp only [Bool.false_eq_true, false_iff]
    omega
  · have hg : cacheGet (CacheState.mk (some s) et) ttl now = (some s, true) := by
      unfold cacheGet
      simp [h]
    rw [hg]
    refine ⟨rfl, ?_⟩
    simp only [true_iff]
    omega

/-! ## Claim C9: ETag determinism and change sensitivity -/

theorem sepNul_data : sepNul.data = ['\x00'] := rfl

/-- Strings with equal character data are equal. -/
theorem string_data_inj {s t : String} (h : s.data = t.data) : s = t := by
  cases s
  cases t
  exact congrArg String.mk h

/-- Splitting a NUL-separated concatenation: when neither prefix contains
the separator, the prefixes and suffixes agree separately. -/
theorem nul_sep_split {l1 l2 r1 r2 : List Char}
    (h1 : '\x00' ∉ l1) (h2 : '\x00' ∉ l2)
    (h : l1 ++ '\x00' :: r1 = l2 ++ '\x00' :: r2) : l1 = l2 ∧ r1 = r2 := by
  induction l1 generalizing l2 with
  | nil =>
    cases l2 with
    | nil => simpa using h
    | cons b l2 =>
      exfalso
      have hb : '\x00' = b := by simpa using congrArg (fun l => l.headD 'x') h
      exact h2 (hb ▸ List.mem_cons_self b l2)
  | cons a l1 ih =>
    cases l2 with
    | nil =>
      exfalso
      have ha : a = '\x00' := by simpa using congrArg (fun l => l.headD 'x') h
      exact h1 (ha ▸ List.mem_cons_self a l1)
    | cons b l2 =>
      rw [List.cons_append, List.cons_append] at h
      have hab : a = b := by simpa using congrArg (fun l => l.headD 'x') h
      have htl : l1 ++ '\x00' :: r1 = l2 ++ '\x00' :: r2 := by
        simpa using congrArg List.tail h
      have h1t : '\x00' ∉ l1 := fun hm => h1 (List.mem_cons_of_mem a hm)
      have h2t : '\x00' ∉ l2 := fun hm => h2 (List.mem_cons_of_mem b hm)
      obtain ⟨he, hr⟩ := ih h1t h2t htl
      exact ⟨by rw [hab, he], hr⟩

/-- The ETag preimage, viewed as character data in right-nested form. -/
theorem etagPreimage_data (d t c n f : String) :
    (etagPreimage d t c n f).data =
      d.data ++ '\x00' :: (t.data ++ '\x00' :: (c.data ++ '\x00' ::
        (n.data ++ '\x00' :: f.data))) := by
  simp [etagPreimage, String.data_append, sepNul_data]

/-- Claim C9: with the SHA-1 hex digest and the RFC3339 height rendering
modelled as injective external functions, the ETag is a deterministic
function of the five-tuple `(denom, total, circulating, sum, height)`, and
it changes whenever any one of the five inputs changes, provided the four
string fields contain no NUL byte (the Go code joins them with NUL
separator bytes; monetary fields are decimal strings and never contain
NUL).  Equality of fingerprints is equivalent to equality of tuples. -/
theorem computeETag_deterministic_sensitive (env : Env)
    (hsha : Function.Injective env.sha1hex)
    (hfmt : Function.Injective env.fmtTime)
    (d t c n d2 t2 c2 n2 : String) (h h2 : Int)
    (hd : '\x00' ∉ d.data) (ht : '\x00' ∉ t.data)
    (hc : '\x00' ∉ c.data) (hn : '\x00' ∉ n.data)
    (hd2 : '\x00' ∉ d2.data) (ht2 : '\x00' ∉ t2.data)
    (hc2 : '\x00' ∉ c2.data) (hn2 : '\x00' ∉ n2.data) :
    computeETag env h d t c n = computeETag env h2 d2 t2 c2 n2 ↔
      (d = d2 ∧ t = t2 ∧ c = c2 ∧ n = n2 ∧ h = h2) := by
  constructor
  · intro heq
    have hpre := hsha heq
    have hdata := congrArg String.data hpre
    rw [etagPreimage_data, etagPreimage_data] at hdata
    obtain ⟨e1, hrest1⟩ := nul_sep_split hd hd2 hdata
    obtain ⟨e2, hrest2⟩ := nul_sep_split ht ht2 hrest1
    obtain ⟨e3, hrest3⟩ := nul_sep_split hc hc2 hrest2
    obtain ⟨e4, hrest4⟩ := nul_sep_split hn hn2 hrest3
    have hfe : env.fmtTime (h * nsPerSec) = env.fmtTime (h2 * nsPerSec) :=
      string_data_inj hrest4
    have hns : h * nsPerSec = h2 * nsPerSec := hfmt hfe
    have hh : h = h2 := by
      have hnz : nsPerSec ≠ 0 := by decide
      exact mul_right_cancel₀ hnz hns
    exact ⟨string_data_inj e1, string_data_inj e2, string_data_inj e3,
      string_data_inj e4, hh⟩
  · rintro ⟨rfl, rfl, rfl, rfl, rfl⟩
    rfl

/-- An easily-invertible stand-in for the RFC3339 renderer, used to
instantiate the injectivity hypothesis in the C9 witness. -/
def unaryStr (n : Int) : String :=
  if 0 ≤ n then String.mk (List.replicate n.toNat 'a')
  else String.mk (List.replicate (-n).toNat 'b')

theorem unaryStr_injective : Function.Injective unaryStr := by
  intro x y hxy
  unfold unaryStr at hxy
  have hdata := congrArg String.data hxy
  split_ifs at hdata with hx hy hy
  · have hlen := congrArg List.length hdata
    simp only [List.length_replicate] at hlen
    omega
  · exfalso
    have hd2 : List.replicate x.toNat 'a' = List.replicate (-y).toNat 'b' := hdata
    have hlen := congrArg List.length hd2
    simp only [List.length_replicate] at hlen
    have hxz : x.toNat ≠ 0 := by omega
    have hmem : 'a' ∈ List.replicate x.toNat 'a' :=
      List.mem_replicate.mpr ⟨hxz, rfl⟩
    rw [hd2] at hmem
    exact absurd (List.mem_replicate.mp hmem).2 (by decide)
  · exfalso
    have hd2 : List.replicate (-x).toNat 'b' = List.replicate y.toNat 'a' := hdata
    have hlen := congrArg List.length hd2
    simp only [List.length_replicate] at hlen
    have hyz : y.toNat ≠ 0 := by omega
    have hmem : 'a' ∈ List.replicate y.toNat 'a' :=
      List.mem_replicate.mpr ⟨hyz, rfl⟩
    rw [← hd2] at hmem
    exact absurd (List.mem_replicate.mp hmem).2 (by decide)
  · have hlen := congrArg List.length hdata
    simp only [List.length_replicate] at hlen
    omega

/-- Environment for the C9 witness: identity digest, unary renderer. -/
def envW9 : Env := { envBase with fmtTime := unaryStr }

theorem computeETag_deterministic_sensitive_witness :
    Function.Injective envW9.sha1hex ∧ Function.Injective envW9.fmtTime ∧
      (computeETag envW9 5 "ulume" "100" "90" "10" =
          computeETag envW9 6 "ulume" "100" "90" "10" ↔
        ("ulume" = "ulume" ∧ "100" = "100" ∧ "90" = "90" ∧ "10" = "10" ∧
          (5 : Int) = 6)) := by
  have hsha : Function.Injective envW9.sha1hex := by
    intro a b hab
    exact hab
  have hfmt : Function.Injective envW9.fmtTime := unaryStr_injective
  refine ⟨hsha, hfmt, ?_⟩
  exact computeETag_deterministic_sensitive envW9 hsha hfmt
    "ulume" "100" "90" "10" "ulume" "100" "90" "10" 5 6
    (by decide) (by decide) (by decide) (by decide)
    (by decide) (by decide) (by decide) (by decide)

end Lumera
